import Mathlib

/-
Shallow embedding of the QMikrotikAPI RouterOS client (class ROS::Comm,
files src/Comm.h and the implementation file src/unnamed/part_000).

The transport (QTcpSocket) is modelled as a list of readable bytes plus a
socket-state field; outbound traffic and Qt signal emissions are modelled
as an explicit event list.  Machine integers that stay small are Nat; the
int-typed readLength result (which uses negative sentinel codes) is Int.
C++ exceptions (throw of a string literal) are modelled with Except String.
-/

/-- QAbstractSocket::SocketState. -/
inductive SocketState where
  | UnconnectedState
  | HostLookupState
  | ConnectingState
  | ConnectedState
  | BoundState
  | ClosingState
  | ListeningState
deriving DecidableEq

/-- ROS::Comm::CommState (the protocol-level state reported via comStateChanged). -/
inductive CommState where
  | Unconnected
  | HostLookup
  | Connecting
  | Connected
  | Closing
deriving DecidableEq

/-- ROS::Comm::LoginState. -/
inductive LoginState where
  | NoLoged
  | LoginRequested
  | UserPassSended
  | LogedIn
deriving DecidableEq

/-- Modelled from the spec: the sentence collaborator QSentence exposes a
result-type classification, at least Done (success) versus other.
(QSentences.h is part of this repository but is not under src/.) -/
inductive ResultType where
  | Done
  | Other
deriving DecidableEq

/-- Modelled from the spec: the sentence collaborator QSentence
(QSentences.h is not under src/) exposes a command word, three word
groups (attributes, API attributes, queries), a tag and a resultType,
plus named-attribute lookup.  Attributes are kept as name/value pairs;
API attributes and queries are kept in their word form. -/
structure QSentence where
  command : String
  attributes : List (String × String)
  apiAttributes : List String
  queries : List String
  tag : String
  resultType : ResultType
deriving DecidableEq

/-- A cleared QSentence (QSentence::clear). -/
def QSentence.empty : QSentence :=
  { command := "", attributes := [], apiAttributes := [], queries := [],
    tag := "", resultType := ResultType.Other }

/-- Modelled from the spec: named-attribute lookup, returning the empty
string when the attribute is absent (QString default). -/
def QSentence.attribute (s : QSentence) (n : String) : String :=
  ((s.attributes.find? (fun p => p.1 == n)).map Prod.snd).getD ""

/-- Modelled from the spec: the word serialization of the attribute group
(each pair becomes an API attribute word of the form =name=value). -/
def attrWord (p : String × String) : String :=
  "=" ++ p.1 ++ "=" ++ p.2

/-- Modelled from the spec: QSentence::addWord sorts an incoming word into
the sentence structure: reply category words (starting with the bang
character) set the result type, =name=value words add an attribute,
.tag= words set the tag, anything else is the command word. -/
def QSentence.addWord (s : QSentence) (w : String) : QSentence :=
  if w = "!done" then { s with resultType := ResultType.Done }
  else if w.startsWith "!" then { s with resultType := ResultType.Other }
  else if w.startsWith ".tag=" then { s with tag := w.drop 5 }
  else if w.startsWith "=" then
    let body := w.drop 1
    { s with attributes :=
        s.attributes ++ [(body.takeWhile (· ≠ '='), (body.dropWhile (· ≠ '=')).drop 1)] }
  else { s with command := w }

/-- Events observable at the boundary of Comm: emitted Qt signals and the
words written to the socket (sendWord calls). -/
inductive Event where
  | comError (msg : String)
  | loginStateChanged (s : LoginState)
  | comStateChanged (s : CommState)
  | comReceive (s : QSentence)
  | sentWord (w : String)
deriving DecidableEq

/-- The state of a ROS::Comm object together with its socket.  sockBuf is
the sequence of bytes buffered for reading on m_sock; sockState is
m_sock.state(). -/
structure Comm where
  sockBuf : List Nat
  sockState : SocketState
  incomingWord : List Nat
  incomingSentence : QSentence
  sentenceCompleted : Bool
  loginState : LoginState
  incomingWordSize : Int
  m_Username : String
  m_Password : String
deriving DecidableEq

/-- Comm::writeLength.  Encodes a word length into 1..4 bytes; the byte
written at position k of the C int memory image is wordLength / 256^k %
256 (little-endian build).  Lengths of 0x10000000 and above throw
"Word too long". -/
def writeLength (wordLength : Nat) : Except String (List Nat) :=
  if wordLength < 0x80 then
    Except.ok [wordLength % 256]
  else if wordLength < 0x4000 then
    Except.ok [(wordLength / 256 % 256) ||| 0x80, wordLength % 256]
  else if wordLength < 0x200000 then
    Except.ok [(wordLength / 65536 % 256) ||| 0xC0, wordLength / 256 % 256, wordLength % 256]
  else if wordLength < 0x10000000 then
    Except.ok [(wordLength / 16777216 % 256) ||| 0xE0,
               wordLength / 65536 % 256, wordLength / 256 % 256, wordLength % 256]
  else
    Except.error "Word too long"

/-- Comm::readLength.  Reads a length prefix from the socket buffer and
returns the readLength result code together with the remaining buffer:
-1 when no byte could be read, -2 or -3 or -4 when the 2nd or 3rd or 4th
byte of a multi-byte prefix could not be read, otherwise the decoded length.  In
the final else branch the first byte has bit 7 clear (all three mask
tests failed), so the signed char cast (int)firstChar is the byte value
itself. -/
def readLength (buf : List Nat) : Int × List Nat :=
  match buf with
  | [] => (-1, [])
  | b0 :: r0 =>
    if b0 &&& 0xE0 = 0xE0 then
      match r0 with
      | [] => (-2, [])
      | b1 :: r1 =>
        match r1 with
        | [] => (-3, [])
        | b2 :: r2 =>
          match r2 with
          | [] => (-4, [])
          | b3 :: r3 =>
            (((b0 &&& 0x1F) * 16777216 + b1 * 65536 + b2 * 256 + b3 : Nat), r3)
    else if b0 &&& 0xC0 = 0xC0 then
      match r0 with
      | [] => (-2, [])
      | b1 :: r1 =>
        match r1 with
        | [] => (-3, [])
        | b2 :: r2 => (((b0 &&& 0x3F) * 65536 + b1 * 256 + b2 : Nat), r2)
    else if b0 &&& 0x80 = 0x80 then
      match r0 with
      | [] => (-2, [])
      | b1 :: r1 => (((b0 &&& 0x7F) * 256 + b1 : Nat), r1)
    else
      ((b0 % 256 : Nat), r0)

/-- QString::toLatin1 on one character: code points below 256 map to the
same byte, anything else becomes a question mark. -/
def latin1Byte (c : Char) : Nat :=
  if c.toNat < 256 then c.toNat else 63

/-- QString::toLatin1 as a byte list. -/
def latin1Bytes (s : String) : List Nat :=
  s.data.map latin1Byte

/-- A QByteArray read from the socket, viewed as a QString (Latin-1). -/
def bytesToString (bs : List Nat) : String :=
  String.mk (bs.map Char.ofNat)

/-- Modelled from the spec: the hash collaborator QMD5 (QMD5.h is part of
this repository but not under src/) provides a hex-decode helper
(QMD5::ToBinary); the numeric value of one hex character. -/
def hexVal (c : Char) : Nat :=
  if '0' ≤ c ∧ c ≤ '9' then c.toNat - 48
  else if 'a' ≤ c ∧ c ≤ 'f' then c.toNat - 87
  else if 'A' ≤ c ∧ c ≤ 'F' then c.toNat - 55
  else 0

/-- Modelled from the spec: QMD5::ToBinary decodes consecutive pairs of
hex characters into bytes (the 32-character challenge becomes 16 bytes). -/
def hexPairsToBytes : List Char → List Nat
  | c1 :: c2 :: rest => (hexVal c1 * 16 + hexVal c2) :: hexPairsToBytes rest
  | _ => []

/-- Modelled from the spec: QMD5::ToBinary on a QString. -/
def hexToBytes (s : String) : List Nat :=
  hexPairsToBytes s.data

/-- Modelled from the spec: one lowercase hex digit of QMD5::DigestToHexString. -/
def hexDigit (n : Nat) : Char :=
  if n < 10 then Char.ofNat (48 + n) else Char.ofNat (87 + n)

/-- Modelled from the spec: QMD5::DigestToHexString hex-encodes a digest,
two lowercase hex characters per byte. -/
def bytesToHex (bs : List Nat) : String :=
  String.mk (bs.foldr (fun b acc => hexDigit (b / 16 % 16) :: hexDigit (b % 16) :: acc) [])

/-- One decimal digit character. -/
def digitChar (n : Nat) : Char :=
  Char.ofNat (48 + n)

/-- The decimal digits of a natural number, most significant first, by
structural recursion on a fuel argument (n needs at most n + 1 division
steps, so the fuel never runs out when natToDigits supplies it). -/
def natToDigitsAux : Nat → Nat → List Char
  | 0, _ => []
  | fuel + 1, n =>
    if n < 10 then [digitChar n]
    else natToDigitsAux fuel (n / 10) ++ [digitChar (n % 10)]

/-- The decimal digits of a natural number, most significant first
(the digit list QString("%1").arg(n) produces for a nonnegative int). -/
def natToDigits (n : Nat) : List Char :=
  natToDigitsAux (n + 1) n

/-- Decimal rendering of a natural number, as QString::arg formats an int. -/
def natToString (n : Nat) : String :=
  String.mk (natToDigits n)

/-- Reads a decimal digit string back to its value (left fold). -/
def digitsToNat (cs : List Char) : Nat :=
  cs.foldl (fun a c => a * 10 + (c.toNat - 48)) 0

/-- The numeric value of a tag string. -/
def tagValue (s : String) : Nat :=
  digitsToNat s.data

/-- Comm::sendWord: writes the encoded length of the word and then the
word bytes to the socket.  The observable effect is the sentWord event;
writeLength may throw "Word too long". -/
def sendWordE (w : String) : Except String Event :=
  (writeLength w.length).map (fun _ => Event.sentWord w)

/-- Comm::sendSentence.  The hidden static counter ID (initially 0) is
made explicit as the ID argument; the result carries the tag returned,
the new counter value and the emitted events.  Sends the command word,
the attribute, API-attribute and query words, then (when addTag) the
.tag word, auto-generating word = toString (ID+1) when the sentence tag
is empty, and finally the empty terminator word. -/
def sendSentence (ID : Nat) (sent : QSentence) (addTag : Bool) :
    Except String (String × Nat × List Event) :=
  match sendWordE sent.command with
  | Except.error e => Except.error e
  | Except.ok e0 =>
    match (sent.attributes.map attrWord ++ sent.apiAttributes ++ sent.queries).mapM sendWordE with
    | Except.error e => Except.error e
    | Except.ok es =>
      if addTag then
        let wi := if sent.tag.isEmpty then (natToString (ID + 1), ID + 1) else (sent.tag, ID)
        match sendWordE (".tag=" ++ wi.1) with
        | Except.error e => Except.error e
        | Except.ok et =>
          match sendWordE "" with
          | Except.error e => Except.error e
          | Except.ok ee => Except.ok (wi.1, wi.2, e0 :: es ++ [et, ee])
      else
        match sendWordE "" with
        | Except.error e => Except.error e
        | Except.ok ee => Except.ok ("", ID, e0 :: es ++ [ee])

/-- Comm::setLoginState: updates m_loginState and emits loginStateChanged
only when the value changed. -/
def setLoginState (s : Comm) (ls : LoginState) : Comm × List Event :=
  ({ s with loginState := ls },
   if ls = s.loginState then [] else [Event.loginStateChanged ls])

/-- Comm::isConnected. -/
def isConnected (s : Comm) : Bool :=
  decide (s.sockState = SocketState.ConnectedState)

/-- Comm::isLoged. -/
def isLoged (s : Comm) : Bool :=
  isConnected s && decide (s.loginState = LoginState.LogedIn)

/-- Comm::closeCom.  When the socket is connected and force is set, the
socket is aborted and closed (its state drops to UnconnectedState) and
comStateChanged(Unconnected) plus a comError are emitted; without force a
graceful disconnect is requested; when not connected nothing happens. -/
def closeCom (s : Comm) (force : Bool) : Comm × List Event :=
  if isConnected s then
    if force then
      ({ s with sockState := SocketState.UnconnectedState },
       [Event.comStateChanged CommState.Unconnected,
        Event.comError "forced abort/close on socket"])
    else
      ({ s with sockState := SocketState.ClosingState }, [])
  else (s, [])

/-- The body-reading tail of Comm::readWord: m_sock.read(incomingWordSize)
consumes up to incomingWordSize buffered bytes; any bytes obtained are
appended to incomingWord and subtracted from incomingWordSize; returns 1
when the word is complete and -1 otherwise. -/
def readBody (s : Comm) : Except String (Int × Comm) :=
  let tmp := s.sockBuf.take s.incomingWordSize.toNat
  let s1 := { s with sockBuf := s.sockBuf.drop s.incomingWordSize.toNat }
  let s2 := if tmp.length ≠ 0 then
      { s1 with incomingWordSize := s.incomingWordSize - tmp.length,
                incomingWord := s.incomingWord ++ tmp }
    else s1
  Except.ok (if s2.incomingWordSize = 0 then 1 else -1, s2)

/-- Comm::readWord.  When no length is pending (incomingWordSize at most
0) a length is decoded first: result -1 is returned as-is (retry later),
results -2, -3 and -4 throw "Incomplete word length arrived.", result 0
clears incomingWord and returns 0, and a positive length falls through to
the body read, as does a pending positive length from a previous call. -/
def readWord (s : Comm) : Except String (Int × Comm) :=
  if s.incomingWordSize ≤ 0 then
    let r := readLength s.sockBuf
    let s1 := { s with sockBuf := r.2, incomingWordSize := r.1 }
    if r.1 = -1 then Except.ok (-1, s1)
    else if r.1 = -2 ∨ r.1 = -3 ∨ r.1 = -4 then
      Except.error "Incomplete word length arrived."
    else if r.1 = 0 then Except.ok (0, { s1 with incomingWord := [] })
    else readBody s1
  else readBody s

/-- The while loop of Comm::readSentence, by fuel.  Every iteration that
keeps looping consumed at least one socket byte, so a fuel of
sockBuf.length + 1 can never run out; the fuel-exhausted arm mirrors the
loop-exit assignment sentenceCompleted = false. -/
def readSentenceAux : Nat → Comm → Except String Comm
  | 0, s => Except.ok { s with sentenceCompleted := false }
  | fuel + 1, s =>
    match readWord s with
    | Except.error e => Except.error e
    | Except.ok r =>
      if 0 ≤ r.1 then
        if r.2.incomingWord.isEmpty then
          Except.ok { r.2 with sentenceCompleted := true }
        else
          readSentenceAux fuel
            { r.2 with
              incomingSentence := r.2.incomingSentence.addWord (bytesToString r.2.incomingWord),
              incomingWord := [],
              incomingWordSize := -1 }
      else Except.ok { r.2 with sentenceCompleted := false }

/-- Comm::readSentence. -/
def readSentence (s : Comm) : Except String Comm :=
  readSentenceAux (s.sockBuf.length + 1) s

/-- Comm::doLogin.  The MD5 primitive of the hash collaborator QMD5
(QMD5.h is not under src/) is passed as the md5 argument; per the spec it
maps a byte sequence to the 16-byte digest.  Faithful to the source: the
digest input is one 0x00 byte, then the Latin-1 password bytes up to the
first NUL (strlen), then the decoded challenge bytes. -/
def doLogin (md5 : List Nat → List Nat) (s : Comm) : Except String (Comm × List Event) :=
  match s.loginState with
  | LoginState.NoLoged => Except.ok (s, [])
  | LoginState.LoginRequested =>
    if s.incomingSentence.resultType ≠ ResultType.Done then
      let r := setLoginState s LoginState.NoLoged
      Except.ok ({ r.1 with sockState := SocketState.UnconnectedState },
                 Event.comError "Cannot login" :: r.2)
    else if s.incomingSentence.attributes.length ≠ 1 then
      let r := setLoginState s LoginState.NoLoged
      Except.ok ({ r.1 with incomingSentence := QSentence.empty,
                            sockState := SocketState.UnconnectedState },
                 Event.comError "Unknown remote login sentence format: didn't receive anything"
                   :: r.2)
    else if (s.incomingSentence.attribute "ret").length = 0 then
      let r := setLoginState s LoginState.NoLoged
      Except.ok ({ r.1 with incomingSentence := QSentence.empty,
                            sockState := SocketState.UnconnectedState },
                 Event.comError
                     "Unknown remote login sentence format: Doesn't receive 'ret' namefield"
                   :: r.2)
    else if (s.incomingSentence.attribute "ret").length ≠ 32 then
      let r := setLoginState s LoginState.NoLoged
      Except.ok ({ r.1 with incomingSentence := QSentence.empty,
                            sockState := SocketState.UnconnectedState },
                 Event.comError
                     "Unknown remote login sentence format: 'ret' field doesn't contains 32 characters"
                   :: r.2)
    else
      let chal := hexToBytes (s.incomingSentence.attribute "ret")
      let pwd := (latin1Bytes s.m_Password).takeWhile (fun b => b ≠ 0)
      let dig := bytesToHex (md5 (0 :: (pwd ++ chal)))
      match sendWordE "/login" with
      | Except.error e => Except.error e
      | Except.ok e1 =>
        match sendWordE ("=name=" ++ s.m_Username) with
        | Except.error e => Except.error e
        | Except.ok e2 =>
          match sendWordE ("=response=00" ++ dig) with
          | Except.error e => Except.error e
          | Except.ok e3 =>
            match sendWordE "" with
            | Except.error e => Except.error e
            | Except.ok e4 =>
              let r := setLoginState
                { s with incomingSentence := QSentence.empty, incomingWordSize := -1 }
                LoginState.UserPassSended
              Except.ok (r.1, [e1, e2, e3, e4] ++ r.2)
  | LoginState.UserPassSended =>
    if s.incomingSentence.resultType = ResultType.Done then
      let r := setLoginState
        { s with incomingWordSize := -1, incomingSentence := QSentence.empty }
        LoginState.LogedIn
      Except.ok (r.1, r.2)
    else
      let r := setLoginState s LoginState.NoLoged
      Except.ok ({ r.1 with incomingWordSize := -1,
                            incomingSentence := QSentence.empty,
                            sockState := SocketState.UnconnectedState },
                 r.2 ++
                   [Event.comError "Invalid Username or Password",
                    Event.comError
                      ("remote msg: " ++ s.incomingSentence.attribute "message")])
  | LoginState.LogedIn => Except.error "router is loged already in"

/-- Comm::onReadyRead.  Assembles socket bytes into the pending sentence
and, once a sentence completes, routes it: to doLogin while not logged
in, otherwise to the application through comReceive. -/
def onReadyRead (md5 : List Nat → List Nat) (s : Comm) :
    Except String (Comm × List Event) :=
  match readSentence s with
  | Except.error e => Except.error e
  | Except.ok s1 =>
    if s1.sentenceCompleted then
      if s1.loginState ≠ LoginState.LogedIn then
        match doLogin md5 s1 with
        | Except.error e => Except.error e
        | Except.ok r => Except.ok ({ r.1 with sentenceCompleted := false }, r.2)
      else
        Except.ok ({ s1 with incomingSentence := QSentence.empty, sentenceCompleted := false },
                   [Event.comReceive s1.incomingSentence])
    else Except.ok (s1, [])

/-- Delivers bytes one at a time: before each readWord call exactly one
further byte is appended to the socket buffer; collects the readWord
result codes. -/
def pollAll : Comm → List Nat → Except String (List Int × Comm)
  | s, [] => Except.ok ([], s)
  | s, b :: bs =>
    match readWord { s with sockBuf := s.sockBuf ++ [b] } with
    | Except.error e => Except.error e
    | Except.ok r =>
      match pollAll r.2 bs with
      | Except.error e => Except.error e
      | Except.ok t => Except.ok (r.1 :: t.1, t.2)

/-- A freshly connected Comm with the given socket buffer (the
constructor initializes incomingWordSize to -1). -/
def mkComm (buf : List Nat) : Comm :=
  { sockBuf := buf, sockState := SocketState.ConnectedState,
    incomingWord := [], incomingSentence := QSentence.empty,
    sentenceCompleted := false, loginState := LoginState.LogedIn,
    incomingWordSize := -1, m_Username := "u", m_Password := "p" }

/-- A dummy hash collaborator used to instantiate witnesses. -/
def md5zero : List Nat → List Nat :=
  fun _ => List.replicate 16 0

/-- A not-yet-logged-in Comm with one buffered zero byte (an empty word,
which completes an empty sentence immediately). -/
def c6s : Comm :=
  { mkComm [0] with loginState := LoginState.NoLoged }

/-- The result of onReadyRead on c6s: the empty sentence was consumed by
the login machine (NoLoged arm: no action), nothing was delivered. -/
def c6r : Comm × List Event :=
  ({ mkComm [] with loginState := LoginState.NoLoged, incomingWordSize := 0 }, [])

/-- A 32-character hex challenge used to instantiate witnesses. -/
def c4ret : String := "00112233445566778899aabbccddeeff"

/-- A Comm waiting in LoginRequested with a well-formed challenge sentence. -/
def c4s : Comm :=
  { mkComm [] with
    loginState := LoginState.LoginRequested,
    incomingSentence :=
      { QSentence.empty with resultType := ResultType.Done,
                             attributes := [("ret", c4ret)] } }

/-- A Comm waiting in LoginRequested whose challenge has the wrong length. -/
def c7s : Comm :=
  { mkComm [] with
    loginState := LoginState.LoginRequested,
    incomingSentence :=
      { QSentence.empty with resultType := ResultType.Done,
                             attributes := [("ret", "abc")] } }

/-- Concrete result of the first auto-tagged send from counter 0. -/
def c8r1 : String × Nat × List Event :=
  (natToString 1, 1,
   [Event.sentWord "", Event.sentWord (".tag=" ++ natToString 1), Event.sentWord ""])

/-- Concrete result of the second auto-tagged send (counter 1). -/
def c8r2 : String × Nat × List Event :=
  (natToString 2, 2,
   [Event.sentWord "", Event.sentWord (".tag=" ++ natToString 2), Event.sentWord ""])

/-- A sentence carrying an explicit tag. -/
def c10sent : QSentence :=
  { QSentence.empty with command := "/cmd", tag := "7" }

/-- Concrete result of sending c10sent with addTag from counter 3. -/
def c10r : String × Nat × List Event :=
  ("7", 3, [Event.sentWord "/cmd", Event.sentWord ".tag=7", Event.sentWord ""])

/-- Mask facts for the 2-byte size class: a first byte carrying the 10
marker fails the 4-byte and 3-byte branch tests of readLength, passes
the 2-byte test, and masking with 0x7F recovers the payload bits. -/
theorem mask2 : ∀ a, a < 64 →
    ¬((a ||| 128) &&& 224 = 224) ∧ ¬((a ||| 128) &&& 192 = 192) ∧
    (a ||| 128) &&& 128 = 128 ∧ (a ||| 128) &&& 127 = a := by decide

/-- Mask facts for the 3-byte size class. -/
theorem mask3 : ∀ a, a < 32 →
    ¬((a ||| 192) &&& 224 = 224) ∧ (a ||| 192) &&& 192 = 192 ∧
    (a ||| 192) &&& 63 = a := by decide

/-- Mask facts for the 4-byte size class. -/
theorem mask4 : ∀ a, a < 16 →
    (a ||| 224) &&& 224 = 224 ∧ (a ||| 224) &&& 31 = a := by decide

/-- Mask facts for the 1-byte size class: a byte below 0x80 fails all
three multi-byte branch tests. -/
theorem mask1 : ∀ a, a < 128 →
    ¬(a &&& 224 = 224) ∧ ¬(a &&& 192 = 192) ∧ ¬(a &&& 128 = 128) ∧ a % 256 = a := by decide

/-- Every length below 0x10000000 encodes successfully. -/
theorem writeLength_isOk (n : Nat) (h : n < 0x10000000) :
    ∃ bs, writeLength n = Except.ok bs := by
  unfold writeLength
  by_cases h1 : n < 0x80
  · simp [h1]
  · by_cases h2 : n < 0x4000
    · simp [h1, h2]
    · by_cases h3 : n < 0x200000
      · simp [h1, h2, h3]
      · simp [h1, h2, h3, h]

/-- Decoding an encoded length recovers it exactly, consuming the whole
encoding. -/
theorem readLength_writeLength (n : Nat) (h : n < 0x10000000) :
    ∀ bs, writeLength n = Except.ok bs → readLength bs = ((n : Int), []) := by
  intro bs hbs
  unfold writeLength at hbs
  by_cases h1 : n < 0x80
  · simp only [if_pos h1] at hbs
    obtain ⟨hm1, hm2, hm3, hm4⟩ := mask1 (n % 256) (by omega)
    cases hbs
    simp only [readLength]
    rw [if_neg, if_neg, if_neg]
    · congr 1
      omega
    · exact hm3
    · exact hm2
    · exact hm1
  · by_cases h2 : n < 0x4000
    · simp only [if_neg h1, if_pos h2] at hbs
      cases hbs
      obtain ⟨hm1, hm2, hm3, hm4⟩ := mask2 (n / 256 % 256) (by omega)
      simp only [readLength]
      rw [if_neg hm1, if_neg hm2, if_pos hm3, hm4]
      have he : n / 256 % 256 * 256 + n % 256 = n := by omega
      rw [he]
    · by_cases h3 : n < 0x200000
      · simp only [if_neg h1, if_neg h2, if_pos h3] at hbs
        cases hbs
        obtain ⟨hm1, hm2, hm3⟩ := mask3 (n / 65536 % 256) (by omega)
        simp only [readLength]
        rw [if_neg hm1, if_pos hm2, hm3]
        have he : n / 65536 % 256 * 65536 + n / 256 % 256 * 256 + n % 256 = n := by omega
        rw [he]
      · simp only [if_neg h1, if_neg h2, if_neg h3, if_pos h] at hbs
        cases hbs
        obtain ⟨hm1, hm2⟩ := mask4 (n / 16777216 % 256) (by omega)
        simp only [readLength]
        rw [if_pos hm1, hm2]
        have he : n / 16777216 % 256 * 16777216 + n / 65536 % 256 * 65536 +
            n / 256 % 256 * 256 + n % 256 = n := by omega
        rw [he]

/-- C1, counterexample.  readLength applied to the raw byte sequence
[0xF0, 0, 0, 0] (a prefix no encoder produces: its masked first byte
keeps five bits) reconstructs the length 0x10000000, which lies in the
range the claim says decode never reconstructs. -/
theorem c1_counterexample :
    (readLength [240, 0, 0, 0]).1 = (268435456 : Int) ∧
    (268435456 : Int) ≥ 268435456 := by
  constructor
  · rfl
  · omega

/-- C1, amended.  For every n in [0, 0x10000000) decoding the encoding of
n yields n back and consumes the whole prefix, and for every n at or
above 0x10000000 writeLength throws "Word too long"; but on raw byte
input outside the encoder image readLength can reconstruct lengths at or
above 0x10000000 (see the counterexample). -/
theorem c1_roundtrip :
    (∀ n : Nat, n < 268435456 →
       ∃ bs, writeLength n = Except.ok bs ∧ readLength bs = ((n : Int), [])) ∧
    (∀ n : Nat, 268435456 ≤ n → writeLength n = Except.error "Word too long") := by
  constructor
  · intro n h
    obtain ⟨bs, hbs⟩ := writeLength_isOk n h
    exact ⟨bs, hbs, readLength_writeLength n h bs hbs⟩
  · intro n h
    unfold writeLength
    rw [if_neg (by omega), if_neg (by omega), if_neg (by omega), if_neg (by omega)]

/-- C1, witness for the amended theorem at n = 5 and n = 0x10000000. -/
theorem c1_roundtrip_witness :
    (∃ bs, writeLength 5 = Except.ok bs ∧ readLength bs = ((5 : Int), ([] : List Nat))) ∧
    writeLength 268435456 = Except.error "Word too long" :=
  ⟨c1_roundtrip.1 5 (by decide), c1_roundtrip.2 268435456 (by decide)⟩

/-- C2, counterexample.  With one buffered byte 0x80 (first byte of a
2-byte length prefix) and no pending length, readWord throws the fatal
"Incomplete word length arrived." exception instead of reporting a
recoverable condition, and the consumed prefix byte is lost. -/
theorem c2_counterexample :
    readWord (mkComm [128]) = Except.error "Incomplete word length arrived." := by
  rfl

/-- C2, amended.  readLength does report the incomplete-length codes -2,
-3, -4 distinctly from the no-data code -1 and from an incomplete body
(readWord result -1), but readWord turns every one of them into the
fatal exception "Incomplete word length arrived.", so the condition is
not recoverable and the partially-read prefix bytes are not retained. -/
theorem c2_incomplete_fatal (s : Comm) (h1 : s.incomingWordSize ≤ 0)
    (h2 : (readLength s.sockBuf).1 = -2 ∨ (readLength s.sockBuf).1 = -3 ∨
          (readLength s.sockBuf).1 = -4) :
    readWord s = Except.error "Incomplete word length arrived." := by
  have hne : ¬((readLength s.sockBuf).1 = -1) := by rcases h2 with h | h | h <;> omega
  simp only [readWord, if_pos h1, if_neg hne, if_pos h2]

/-- C2, witness for the amended theorem: buffer [0xC0, 0] starts a 3-byte
prefix whose third byte is missing (readLength code -3). -/
theorem c2_incomplete_fatal_witness :
    readWord (mkComm [192, 0]) = Except.error "Incomplete word length arrived." :=
  c2_incomplete_fatal (mkComm [192, 0]) (by decide)
    (Or.inr (Or.inl (by decide)))

/-- C3, counterexample.  closeCom(force=true) is a no-op when the socket
is not in ConnectedState (here: ConnectingState stays ConnectingState),
and even when connected it leaves the pending decode and login state
untouched (incomingWordSize stays 5 and loginState stays LogedIn instead
of being reset to -1 and NoLoged). -/
theorem c3_counterexample :
    (closeCom { mkComm [] with sockState := SocketState.ConnectingState } true).1.sockState
        = SocketState.ConnectingState ∧
    (closeCom { mkComm [] with incomingWordSize := 5, incomingWord := [104] } true).1.incomingWordSize
        = 5 ∧
    (closeCom { mkComm [] with incomingWordSize := 5, incomingWord := [104] } true).1.loginState
        = LoginState.LogedIn := by
  decide

/-- C3, amended.  closeCom(force=true) moves the socket to
UnconnectedState only from ConnectedState and is a no-op from every
other socket state; in every case PendingWord (incomingWordSize,
incomingWord), PendingSentence (incomingSentence) and LoginState keep
their current values rather than being reset to initial ones. -/
theorem c3_close_force (s : Comm) :
    (closeCom s true).1.incomingWordSize = s.incomingWordSize ∧
    (closeCom s true).1.incomingWord = s.incomingWord ∧
    (closeCom s true).1.incomingSentence = s.incomingSentence ∧
    (closeCom s true).1.loginState = s.loginState ∧
    (closeCom s true).1.sockState =
      (if s.sockState = SocketState.ConnectedState then SocketState.UnconnectedState
       else s.sockState) := by
  unfold closeCom isConnected
  by_cases h : s.sockState = SocketState.ConnectedState <;> simp [h]

/-- C5.  Delivering the encoded word for "hello" (length byte 5, then the
five payload bytes) one byte at a time yields the need-more-data code -1
on each of the first five readWord calls and code 1 with the completed
word on the sixth, and the final buffered word equals the one obtained
when all six bytes are available in a single call; the buffered bytes
are the Latin-1 bytes of "hello". -/
theorem c5_resumable :
    (pollAll (mkComm []) [5, 104, 101, 108, 108, 111]).toOption.map
        (fun p => (p.1, p.2.incomingWord)) =
      some ([-1, -1, -1, -1, -1, 1], [104, 101, 108, 108, 111]) ∧
    (readWord (mkComm [5, 104, 101, 108, 108, 111])).toOption.map
        (fun p => (p.1, p.2.incomingWord)) =
      some (1, [104, 101, 108, 108, 111]) ∧
    bytesToString [104, 101, 108, 108, 111] = "hello" := by
  refine ⟨by decide, by decide, ?_⟩
  decide

/-- C9.  isLoged is true exactly when the socket is in ConnectedState and
the login state is LogedIn; in particular it is false whenever the
connection is down, even if LoginState still holds LogedIn. -/
theorem c9_isLoged (s : Comm) :
    (isLoged s = true ↔
      (s.sockState = SocketState.ConnectedState ∧ s.loginState = LoginState.LogedIn)) ∧
    (s.sockState ≠ SocketState.ConnectedState → isLoged s = false) := by
  unfold isLoged isConnected
  constructor
  · simp
  · intro h
    simp [h]

/-- C9, witness: a disconnected Comm that still records LogedIn is not
reported as logged in. -/
theorem c9_isLoged_witness :
    isLoged { mkComm [] with sockState := SocketState.UnconnectedState } = false :=
  (c9_isLoged { mkComm [] with sockState := SocketState.UnconnectedState }).2
    (by decide)

/-- Bind of a successful Except computation. -/
theorem exceptBind_ok {α β : Type} (a : α) (f : α → Except String β) :
    (Except.ok a >>= f) = f a := rfl

/-- Bind of a failed Except computation. -/
theorem exceptBind_error {α β : Type} (e : String) (f : α → Except String β) :
    ((Except.error e : Except String α) >>= f) = Except.error e := rfl

/-- A decimal digit character decodes back to its value. -/
theorem digitChar_toNat : ∀ d, d < 10 → (digitChar d).toNat = 48 + d := by decide

/-- Appending one digit multiplies the decoded value by ten. -/
theorem digitsToNat_append (xs : List Char) (c : Char) :
    digitsToNat (xs ++ [c]) = digitsToNat xs * 10 + (c.toNat - 48) := by
  simp [digitsToNat, List.foldl_append]

/-- The fueled digit expansion decodes back to the encoded value. -/
theorem digitsToNat_natToDigitsAux :
    ∀ fuel n, n < fuel → digitsToNat (natToDigitsAux fuel n) = n := by
  intro fuel
  induction fuel with
  | zero => intro n hn; omega
  | succ fuel ih =>
    intro n hn
    rw [natToDigitsAux]
    by_cases h : n < 10
    · rw [if_pos h]
      simp [digitsToNat, digitChar_toNat n h]
    · rw [if_neg h, digitsToNat_append, ih (n / 10) (by omega),
          digitChar_toNat (n % 10) (by omega)]
      omega

/-- Decimal formatting round-trips through decimal parsing. -/
theorem tagValue_natToString (n : Nat) : tagValue (natToString n) = n := by
  have : (natToString n).data = natToDigits n := rfl
  rw [tagValue, this, natToDigits, digitsToNat_natToDigitsAux (n + 1) n (by omega)]

/-- Decimal formatting is injective. -/
theorem natToString_inj {a b : Nat} (h : natToString a = natToString b) : a = b := by
  have h2 : tagValue (natToString a) = tagValue (natToString b) := by rw [h]
  rwa [tagValue_natToString, tagValue_natToString] at h2

/-- A successful sendWord produced exactly the sentWord event of its word. -/
theorem sendWordE_shape (w : String) (e : Event) (h : sendWordE w = Except.ok e) :
    e = Event.sentWord w := by
  unfold sendWordE at h
  cases hw : writeLength w.length with
  | error s => rw [hw] at h; simp [Except.map] at h
  | ok bs =>
    rw [hw] at h
    simp [Except.map] at h
    exact h.symm

/-- Characterization of a successful tagged send: with an empty sentence
tag the returned tag is the rendering of ID+1 and the counter advances to
ID+1; with an explicit tag the tag is returned verbatim, the counter is
unchanged and the .tag word carrying it is among the sent words. -/
theorem sendSentence_tag_ok (ID : Nat) (sent : QSentence) (r : String × Nat × List Event)
    (h : sendSentence ID sent true = Except.ok r) :
    (sent.tag = "" → r.1 = natToString (ID + 1) ∧ r.2.1 = ID + 1) ∧
    (sent.tag ≠ "" → r.1 = sent.tag ∧ r.2.1 = ID ∧
      Event.sentWord (".tag=" ++ sent.tag) ∈ r.2.2) := by
  unfold sendSentence at h
  cases h0 : sendWordE sent.command with
  | error e => rw [h0] at h; simp at h
  | ok e0 =>
    rw [h0] at h
    dsimp only [] at h
    cases h1 : (sent.attributes.map attrWord ++ sent.apiAttributes ++ sent.queries).mapM
        sendWordE with
    | error e => rw [h1] at h; simp at h
    | ok es =>
      rw [h1] at h
      dsimp only [] at h
      rw [if_pos rfl] at h
      by_cases ht : sent.tag = ""
      · have hemp : sent.tag.isEmpty = true := (String.isEmpty_iff sent.tag).mpr ht
        rw [hemp, if_pos rfl] at h
        dsimp only [] at h
        cases h2 : sendWordE (".tag=" ++ natToString (ID + 1)) with
        | error e => rw [h2] at h; simp at h
        | ok et =>
          rw [h2] at h
          dsimp only [] at h
          cases h3 : sendWordE "" with
          | error e => rw [h3] at h; simp at h
          | ok ee =>
            rw [h3] at h
            dsimp only [] at h
            simp only [Except.ok.injEq] at h
            constructor
            · intro _
              rw [← h]
              exact ⟨rfl, rfl⟩
            · intro hne
              exact absurd ht hne
      · have hemp : sent.tag.isEmpty = false := by
          rw [Bool.eq_false_iff]
          intro hh
          exact ht ((String.isEmpty_iff sent.tag).mp hh)
        rw [hemp, if_neg Bool.false_ne_true] at h
        dsimp only [] at h
        cases h2 : sendWordE (".tag=" ++ sent.tag) with
        | error e => rw [h2] at h; simp at h
        | ok et =>
          rw [h2] at h
          dsimp only [] at h
          cases h3 : sendWordE "" with
          | error e => rw [h3] at h; simp at h
          | ok ee =>
            rw [h3] at h
            dsimp only [] at h
            simp only [Except.ok.injEq] at h
            constructor
            · intro hq
              exact absurd hq ht
            · intro _
              rw [← h]
              refine ⟨rfl, rfl, ?_⟩
              have := sendWordE_shape _ _ h2
              simp [this]

/-- C8.  Two consecutive successful sends with addTag and empty sentence
tags return the renderings of c+1 and then c+2: distinct tags whose
numeric values strictly increase; starting from counter 0 the first
auto-generated tag is "1"; and a send whose sentence carries an explicit
tag returns it verbatim and sends the corresponding .tag word. -/
theorem c8_tags :
    (∀ (c : Nat) (s1 s2 : QSentence) (r1 r2 : String × Nat × List Event),
        s1.tag = "" → s2.tag = "" →
        sendSentence c s1 true = Except.ok r1 →
        sendSentence r1.2.1 s2 true = Except.ok r2 →
        r1.1 = natToString (c + 1) ∧ r2.1 = natToString (c + 2) ∧
        tagValue r1.1 < tagValue r2.1 ∧ r1.1 ≠ r2.1) ∧
    (∀ (c : Nat) (s : QSentence) (r : String × Nat × List Event),
        s.tag ≠ "" → sendSentence c s true = Except.ok r →
        r.1 = s.tag ∧ Event.sentWord (".tag=" ++ s.tag) ∈ r.2.2) ∧
    natToString (0 + 1) = "1" := by
  refine ⟨?_, ?_, by decide⟩
  · intro c s1 s2 r1 r2 ht1 ht2 h1 h2
    obtain ⟨ha1, _⟩ := sendSentence_tag_ok c s1 r1 h1
    obtain ⟨t1, n1⟩ := ha1 ht1
    obtain ⟨ha2, _⟩ := sendSentence_tag_ok r1.2.1 s2 r2 h2
    obtain ⟨t2, n2⟩ := ha2 ht2
    rw [n1] at t2
    refine ⟨t1, t2, ?_, ?_⟩
    · rw [t1, t2, tagValue_natToString, tagValue_natToString]
      omega
    · intro he
      rw [t1, t2] at he
      have := natToString_inj he
      omega
  · intro c s r ht h
    obtain ⟨_, hb⟩ := sendSentence_tag_ok c s r h
    obtain ⟨hv, _, hm⟩ := hb ht
    exact ⟨hv, hm⟩

/-- C8, witness: the two auto-tagged sends of the empty sentence from
counter 0 produce tags "1" and "2". -/
theorem c8_tags_witness :
    c8r1.1 = natToString (0 + 1) ∧ c8r2.1 = natToString (0 + 2) ∧
    tagValue c8r1.1 < tagValue c8r2.1 ∧ c8r1.1 ≠ c8r2.1 :=
  c8_tags.1 0 QSentence.empty QSentence.empty c8r1 c8r2 rfl rfl rfl rfl

/-- C10.  A successful send with addTag whose sentence carries an
explicit non-empty tag leaves the auto-tag counter unchanged and returns
that tag, so a later auto-tagged send from the returned counter produces
exactly the tag the counter value c+1 would have produced anyway. -/
theorem c10_counter_frame (c : Nat) (s : QSentence) (r : String × Nat × List Event)
    (ht : s.tag ≠ "") (h : sendSentence c s true = Except.ok r) :
    r.2.1 = c ∧ r.1 = s.tag ∧
    (∀ (s2 : QSentence) (r2 : String × Nat × List Event), s2.tag = "" →
      sendSentence r.2.1 s2 true = Except.ok r2 → r2.1 = natToString (c + 1)) := by
  obtain ⟨_, hb⟩ := sendSentence_tag_ok c s r h
  obtain ⟨hv, hc, _⟩ := hb ht
  refine ⟨hc, hv, ?_⟩
  intro s2 r2 ht2 h2
  obtain ⟨ha2, _⟩ := sendSentence_tag_ok r.2.1 s2 r2 h2
  obtain ⟨t2, _⟩ := ha2 ht2
  rw [t2, hc]

/-- C10, witness: sending a sentence tagged "7" from counter 3 returns
tag "7" and counter 3, and the following auto-tagged send yields the
rendering of 4. -/
theorem c10_counter_frame_witness :
    c10r.2.1 = 3 ∧ c10r.1 = c10sent.tag ∧
    (∀ (s2 : QSentence) (r2 : String × Nat × List Event), s2.tag = "" →
      sendSentence c10r.2.1 s2 true = Except.ok r2 → r2.1 = natToString (3 + 1)) :=
  c10_counter_frame 3 c10sent c10r (by decide) rfl

/-- sendWord succeeds on every word whose length fits the encoder. -/
theorem sendWordE_ok (w : String) (h : w.length < 268435456) :
    sendWordE w = Except.ok (Event.sentWord w) := by
  obtain ⟨bs, hbs⟩ := writeLength_isOk w.length h
  unfold sendWordE
  rw [hbs]
  rfl

/-- Hex-encoding yields two characters per byte. -/
theorem bytesToHex_length (bs : List Nat) : (bytesToHex bs).length = 2 * bs.length := by
  show (bs.foldr (fun b acc => hexDigit (b / 16 % 16) :: hexDigit (b % 16) :: acc) []).length
      = 2 * bs.length
  induction bs with
  | nil => rfl
  | cons b t ih =>
    simp only [List.foldr, List.length_cons, ih, List.length]
    omega

/-- C7.  In LoginRequested, a Done challenge sentence whose single
attribute ret has nonzero length other than 32 makes doLogin emit the
dedicated wrong-length comError, reset LoginState to NoLoged, clear the
sentence and close the socket, sending no word to the peer; the message
differs from the missing-ret message. -/
theorem c7_badlen (md5 : List Nat → List Nat) (s : Comm) (ret : String)
    (h1 : s.loginState = LoginState.LoginRequested)
    (h2 : s.incomingSentence.resultType = ResultType.Done)
    (h3 : s.incomingSentence.attributes = [("ret", ret)])
    (h4 : ret.length ≠ 32) (h5 : ret.length ≠ 0) :
    doLogin md5 s =
      Except.ok ({ s with loginState := LoginState.NoLoged,
                          incomingSentence := QSentence.empty,
                          sockState := SocketState.UnconnectedState },
        [Event.comError
           "Unknown remote login sentence format: 'ret' field doesn't contains 32 characters",
         Event.loginStateChanged LoginState.NoLoged]) ∧
    (∀ w, Event.sentWord w ∉
      ([Event.comError
          "Unknown remote login sentence format: 'ret' field doesn't contains 32 characters",
        Event.loginStateChanged LoginState.NoLoged] : List Event)) ∧
    ("Unknown remote login sentence format: 'ret' field doesn't contains 32 characters" ≠
      "Unknown remote login sentence format: Doesn't receive 'ret' namefield") := by
  have hattr : s.incomingSentence.attribute "ret" = ret := by
    simp [QSentence.attribute, h3]
  refine ⟨?_, by simp, by decide⟩
  unfold doLogin
  rw [h1]
  dsimp only []
  rw [if_neg (by simp [h2]), if_neg (by simp [h3]), if_neg (by simp [hattr, h5]),
      if_pos (by simp [hattr, h4])]
  simp [setLoginState, h1]

/-- C7, witness: a 3-character challenge "abc" triggers the wrong-length
error path. -/
theorem c7_badlen_witness :
    doLogin md5zero c7s =
      Except.ok ({ c7s with loginState := LoginState.NoLoged,
                            incomingSentence := QSentence.empty,
                            sockState := SocketState.UnconnectedState },
        [Event.comError
           "Unknown remote login sentence format: 'ret' field doesn't contains 32 characters",
         Event.loginStateChanged LoginState.NoLoged]) ∧
    (∀ w, Event.sentWord w ∉
      ([Event.comError
          "Unknown remote login sentence format: 'ret' field doesn't contains 32 characters",
        Event.loginStateChanged LoginState.NoLoged] : List Event)) ∧
    ("Unknown remote login sentence format: 'ret' field doesn't contains 32 characters" ≠
      "Unknown remote login sentence format: Doesn't receive 'ret' namefield") :=
  c7_badlen md5zero c7s "abc" rfl rfl rfl (by decide) (by decide)

/-- C4.  In LoginRequested, given a Done challenge sentence whose single
attribute ret holds 32 valid hex characters, doLogin sends exactly the
words /login, =name=<username>, =response=00<hex digest> and the empty
terminator, where the digest is MD5 over one 0x00 byte, the Latin-1
password bytes and the 16 decoded challenge bytes, and then transitions
to UserPassSended (emitting the login-state change).  The side
hypotheses state the hash collaborator contract (16-byte digests), that
the password has no embedded NUL byte (the source measures it with
strlen) and that the username fits the length encoder. -/
theorem c4_login_response (md5 : List Nat → List Nat) (s : Comm) (ret : String)
    (hmd5 : ∀ bs, (md5 bs).length = 16)
    (h1 : s.loginState = LoginState.LoginRequested)
    (h2 : s.incomingSentence.resultType = ResultType.Done)
    (h3 : s.incomingSentence.attributes = [("ret", ret)])
    (h4 : ret.length = 32)
    (_hhex : ∀ c ∈ ret.data,
      ('0' ≤ c ∧ c ≤ '9') ∨ ('a' ≤ c ∧ c ≤ 'f') ∨ ('A' ≤ c ∧ c ≤ 'F'))
    (hnp : (0 : Nat) ∉ latin1Bytes s.m_Password)
    (hu : s.m_Username.length < 268435440) :
    doLogin md5 s =
      Except.ok ({ s with incomingSentence := QSentence.empty,
                          incomingWordSize := -1,
                          loginState := LoginState.UserPassSended },
        [Event.sentWord "/login",
         Event.sentWord ("=name=" ++ s.m_Username),
         Event.sentWord ("=response=00" ++
           bytesToHex (md5 (0 :: (latin1Bytes s.m_Password ++ hexToBytes ret)))),
         Event.sentWord "",
         Event.loginStateChanged LoginState.UserPassSended]) := by
  have hattr : s.incomingSentence.attribute "ret" = ret := by
    simp [QSentence.attribute, h3]
  have hpw : (latin1Bytes s.m_Password).takeWhile (fun b => b ≠ 0)
      = latin1Bytes s.m_Password := by
    apply List.takeWhile_eq_self_iff.mpr
    intro x hx
    simp only [ne_eq, decide_eq_true_eq]
    intro h0
    exact hnp (h0 ▸ hx)
  have hw1 : sendWordE "/login" = Except.ok (Event.sentWord "/login") := rfl
  have hw2 : sendWordE ("=name=" ++ s.m_Username)
      = Except.ok (Event.sentWord ("=name=" ++ s.m_Username)) := by
    apply sendWordE_ok
    rw [String.length_append]
    have h6 : ("=name=" : String).length = 6 := by decide
    omega
  have hw3 : sendWordE ("=response=00" ++
        bytesToHex (md5 (0 :: (latin1Bytes s.m_Password ++ hexToBytes ret))))
      = Except.ok (Event.sentWord ("=response=00" ++
        bytesToHex (md5 (0 :: (latin1Bytes s.m_Password ++ hexToBytes ret))))) := by
    apply sendWordE_ok
    rw [String.length_append, bytesToHex_length, hmd5]
    have h12 : ("=response=00" : String).length = 12 := by decide
    omega
  have hw4 : sendWordE "" = Except.ok (Event.sentWord "") := rfl
  unfold doLogin
  rw [h1]
  dsimp only []
  rw [if_neg (by simp [h2]), if_neg (by simp [h3]), if_neg (by simp [hattr, h4]),
      if_neg (by simp [hattr, h4])]
  rw [hattr, hpw, hw1]
  dsimp only []
  rw [hw2]
  dsimp only []
  rw [hw3]
  dsimp only []
  rw [hw4]
  dsimp only []
  simp [setLoginState, h1]

/-- C4, witness: the concrete challenge c4ret with the dummy 16-byte hash
collaborator. -/
theorem c4_login_response_witness :
    doLogin md5zero c4s =
      Except.ok ({ c4s with incomingSentence := QSentence.empty,
                            incomingWordSize := -1,
                            loginState := LoginState.UserPassSended },
        [Event.sentWord "/login",
         Event.sentWord ("=name=" ++ c4s.m_Username),
         Event.sentWord ("=response=00" ++
           bytesToHex (md5zero (0 :: (latin1Bytes c4s.m_Password ++ hexToBytes c4ret)))),
         Event.sentWord "",
         Event.loginStateChanged LoginState.UserPassSended]) :=
  c4_login_response md5zero c4s c4ret
    (fun bs => by simp [md5zero])
    rfl rfl rfl (by decide) (by decide) (by decide) (by decide)

/-- readBody never changes the login state. -/
theorem readBody_loginState (s : Comm) (p : Int × Comm)
    (h : readBody s = Except.ok p) : p.2.loginState = s.loginState := by
  unfold readBody at h
  simp only [Except.ok.injEq] at h
  rw [← h]
  dsimp only []
  split
  · rfl
  · rfl

/-- readWord never changes the login state. -/
theorem readWord_loginState (s : Comm) (p : Int × Comm)
    (h : readWord s = Except.ok p) : p.2.loginState = s.loginState := by
  unfold readWord at h
  by_cases h1 : s.incomingWordSize ≤ 0
  · rw [if_pos h1] at h
    dsimp only [] at h
    split at h
    · simp only [Except.ok.injEq] at h
      rw [← h]
    · split at h
      · simp at h
      · split at h
        · simp only [Except.ok.injEq] at h
          rw [← h]
        · have hb := readBody_loginState _ _ h
          exact hb
  · rw [if_neg h1] at h
    exact readBody_loginState _ _ h

/-- The readSentence loop never changes the login state. -/
theorem readSentenceAux_loginState :
    ∀ (fuel : Nat) (s t : Comm), readSentenceAux fuel s = Except.ok t →
      t.loginState = s.loginState := by
  intro fuel
  induction fuel with
  | zero =>
    intro s t h
    simp only [readSentenceAux, Except.ok.injEq] at h
    rw [← h]
  | succ fuel ih =>
    intro s t h
    rw [readSentenceAux] at h
    cases hw : readWord s with
    | error e => rw [hw] at h; simp at h
    | ok p =>
      rw [hw] at h
      dsimp only [] at h
      have hp := readWord_loginState s p hw
      split at h
      · split at h
        · simp only [Except.ok.injEq] at h
          rw [← h]
          exact hp
        · have := ih _ _ h
          rw [this]
          exact hp
      · simp only [Except.ok.injEq] at h
        rw [← h]
        exact hp

/-- readSentence never changes the login state. -/
theorem readSentence_loginState (s t : Comm) (h : readSentence s = Except.ok t) :
    t.loginState = s.loginState :=
  readSentenceAux_loginState _ s t h

/-- doLogin never delivers a sentence to the application: no comReceive
event is ever among its emitted events. -/
theorem doLogin_no_receive (md5 : List Nat → List Nat) (s : Comm)
    (p : Comm × List Event) (h : doLogin md5 s = Except.ok p) :
    ∀ q, Event.comReceive q ∉ p.2 := by
  intro q
  unfold doLogin at h
  cases hls : s.loginState with
  | NoLoged =>
    rw [hls] at h
    dsimp only [] at h
    simp only [Except.ok.injEq] at h
    rw [← h]
    simp
  | LoginRequested =>
    rw [hls] at h
    dsimp only [] at h
    split at h
    · simp only [Except.ok.injEq] at h
      rw [← h]
      simp [setLoginState]
    · split at h
      · simp only [Except.ok.injEq] at h
        rw [← h]
        simp [setLoginState]
      · split at h
        · simp only [Except.ok.injEq] at h
          rw [← h]
          simp [setLoginState]
        · split at h
          · simp only [Except.ok.injEq] at h
            rw [← h]
            simp [setLoginState]
          · cases h1 : sendWordE "/login" with
            | error e => rw [h1] at h; simp at h
            | ok e1 =>
              rw [h1] at h
              dsimp only [] at h
              cases h2 : sendWordE ("=name=" ++ s.m_Username) with
              | error e => rw [h2] at h; simp at h
              | ok e2 =>
                rw [h2] at h
                dsimp only [] at h
                cases h3 : sendWordE ("=response=00" ++ bytesToHex (md5 (0 ::
                    ((latin1Bytes s.m_Password).takeWhile (fun b => b ≠ 0) ++
                      hexToBytes (s.incomingSentence.attribute "ret"))))) with
                | error e => rw [h3] at h; simp at h
                | ok e3 =>
                  rw [h3] at h
                  dsimp only [] at h
                  cases h4 : sendWordE "" with
                  | error e => rw [h4] at h; simp at h
                  | ok e4 =>
                    rw [h4] at h
                    dsimp only [] at h
                    simp only [Except.ok.injEq] at h
                    rw [← h]
                    have s1 := sendWordE_shape _ _ h1
                    have s2 := sendWordE_shape _ _ h2
                    have s3 := sendWordE_shape _ _ h3
                    have s4 := sendWordE_shape _ _ h4
                    rw [s1, s2, s3, s4]
                    simp [setLoginState]
  | UserPassSended =>
    rw [hls] at h
    dsimp only [] at h
    split at h
    · simp only [Except.ok.injEq] at h
      rw [← h]
      simp [setLoginState]
    · simp only [Except.ok.injEq] at h
      rw [← h]
      simp [setLoginState]
  | LogedIn =>
    rw [hls] at h
    dsimp only [] at h
    simp at h

/-- C6.  A comReceive event (sentence delivered to the application) can
only be emitted by onReadyRead when LoginState is LogedIn at delivery
time (readSentence never changes it); and whenever a sentence completes
while not LogedIn, the result of onReadyRead is exactly the routing of
that sentence through doLogin, i.e. the login machine consumes it. -/
theorem c6_gate (md5 : List Nat → List Nat) (s : Comm) (r : Comm × List Event)
    (h : onReadyRead md5 s = Except.ok r) :
    (∀ q, Event.comReceive q ∈ r.2 → s.loginState = LoginState.LogedIn) ∧
    (∀ s1, readSentence s = Except.ok s1 → s1.sentenceCompleted = true →
       s.loginState ≠ LoginState.LogedIn →
       ∃ p, doLogin md5 s1 = Except.ok p ∧
            r = ({ p.1 with sentenceCompleted := false }, p.2)) := by
  unfold onReadyRead at h
  cases hrs : readSentence s with
  | error e => rw [hrs] at h; simp at h
  | ok s1 =>
    rw [hrs] at h
    dsimp only [] at h
    have hls := readSentence_loginState s s1 hrs
    by_cases hc : s1.sentenceCompleted = true
    · rw [if_pos hc] at h
      by_cases hl : s1.loginState = LoginState.LogedIn
      · rw [if_neg (by simp [hl])] at h
        simp only [Except.ok.injEq] at h
        constructor
        · intro q _
          rw [← hls]
          exact hl
        · intro s1' _ _ hne
          exact absurd (hls.symm.trans hl) hne
      · rw [if_pos hl] at h
        cases hd : doLogin md5 s1 with
        | error e => rw [hd] at h; simp at h
        | ok p =>
          rw [hd] at h
          dsimp only [] at h
          simp only [Except.ok.injEq] at h
          constructor
          · intro q hq
            rw [← h] at hq
            exact absurd hq (doLogin_no_receive md5 s1 p hd q)
          · intro s1' hrs' _ _
            injection hrs' with he
            cases he
            exact ⟨p, hd, h.symm⟩
    · rw [if_neg hc] at h
      simp only [Except.ok.injEq] at h
      constructor
      · intro q hq
        rw [← h] at hq
        simp at hq
      · intro s1' hrs' hcomp _
        injection hrs' with he
        cases he
        exact absurd hcomp hc

/-- C6, witness: a completed empty sentence arriving while NoLoged is
consumed by the login machine and delivers nothing. -/
theorem c6_gate_witness :
    (∀ q, Event.comReceive q ∈ c6r.2 → c6s.loginState = LoginState.LogedIn) ∧
    (∀ s1, readSentence c6s = Except.ok s1 → s1.sentenceCompleted = true →
       c6s.loginState ≠ LoginState.LogedIn →
       ∃ p, doLogin md5zero s1 = Except.ok p ∧
            c6r = ({ p.1 with sentenceCompleted := false }, p.2)) :=
  c6_gate md5zero c6s c6r rfl
